import Mathlib

/-!
Verification of the advanced-features core of the tmux orchestrator
(src/advanced_features.py): trend analysis, capability/workload task
assignment, quality gates, and agent health supervision.

Python floats are modelled as rationals, timestamps as rationals measured
in hours, dictionaries as association lists or total/optional functions.
External effects (tmux subprocess calls, pane capture, the metrics
database) are modelled at their interface boundary by explicit parameters.
-/

namespace Orchestrator

/-- Timestamps, measured in hours, modelled as rationals. -/
abbrev Time := ℚ

/-! ## TrendAnalyzer: AdvancedMonitoring._calculate_trend -/

/-- Embedding of AdvancedMonitoring._calculate_trend: with fewer than two
values return true; otherwise split at the floor-division midpoint, average
each half, and return whether the second half average strictly exceeds the
first half average. -/
def calculate_trend (values : List ℚ) : Bool :=
  if values.length < 2 then true
  else
    let mid := values.length / 2
    let first_half_avg := (values.take mid).sum / (mid : ℚ)
    let second_half_avg := (values.drop mid).sum / ((values.length - mid : ℕ) : ℚ)
    decide (first_half_avg < second_half_avg)

/-! ## TaskAssignmentEngine: IntelligentTaskAssignment -/

/-- Python dict.get(key, default) over an insertion-ordered association list. -/
def dictGet (m : List (String × ℚ)) (k : String) (d : ℚ) : ℚ :=
  match m.find? (fun p => p.1 == k) with
  | some p => p.2
  | none => d

/-- The loop body of _calculate_capability_match: accumulate
(total_match, total_weight) over one required skill. -/
def capMatchStep (agent_caps : List (String × ℚ)) (acc : ℚ × ℚ)
    (sr : String × ℚ) : ℚ × ℚ :=
  let agent_level := dictGet agent_caps sr.1 0
  let weight := sr.2
  let match_score := if 0 < sr.2 then min 1 (agent_level / sr.2) else 1
  (acc.1 + match_score * weight, acc.2 + weight)

/-- Embedding of IntelligentTaskAssignment._calculate_capability_match. -/
def calculate_capability_match (agent_caps task_reqs : List (String × ℚ)) : ℚ :=
  if task_reqs.isEmpty then 1
  else
    let acc := task_reqs.foldl (capMatchStep agent_caps) (0, 0)
    if 0 < acc.2 then acc.1 / acc.2 else 0

/-- A workload entry recorded against an agent on assignment. -/
structure WorkloadEntry where
  task_id : String
  assigned_at : Time
  complexity : ℚ
  priority : String
deriving DecidableEq

/-- The pruning step of _calculate_workload_factor: keep entries assigned
strictly after the 24-hour cutoff. -/
def pruneWorkload (now : Time) (l : List WorkloadEntry) : List WorkloadEntry :=
  l.filter (fun e => decide (now - 24 < e.assigned_at))

/-- Summed complexity of a workload list. -/
def sumComplexity (l : List WorkloadEntry) : ℚ := (l.map (fun e => e.complexity)).sum

/-- The arithmetic core of the workload factor: max(0.1, 1/(1+s)). -/
def workloadFactorOf (s : ℚ) : ℚ := max (1/10) (1/(1+s))

/-- Embedding of IntelligentTaskAssignment._calculate_workload_factor
(the value it returns; the pruning side effect on the tracker is modelled
in assignLoop below). -/
def calculate_workload_factor (now : Time) (l : List WorkloadEntry) : ℚ :=
  workloadFactorOf (sumComplexity (pruneWorkload now l))

/-- Embedding of IntelligentTaskAssignment._calculate_performance_factor,
parameterised by the metrics store: some q means an average quality score
is available, none means no data or a retrieval failure (default 0.8). -/
def performance_factor (perfData : String → Option ℚ) (a : String) : ℚ :=
  match perfData a with
  | some q => max (1/10) q
  | none => 4/5

/-- A task submitted for assignment (required_skills, priority, complexity
are the fields read by assign_optimal_task). -/
structure Task where
  id : String
  required_skills : List (String × ℚ)
  priority : String
  complexity : ℚ

/-- The mutable workload tracker (defaultdict of lists). -/
abbrev Tracker := String → List WorkloadEntry

/-- The candidate loop of assign_optimal_task: skips candidates with no
registered capability vector, computes the three factors, prunes the
candidate's workload list in the tracker as a side effect of the workload
factor, and keeps the strictly best score seen so far. -/
def assignLoop (caps : String → Option (List (String × ℚ)))
    (perfData : String → Option ℚ) (reqs : List (String × ℚ)) (now : Time) :
    List String → Option String × ℚ → Tracker → (Option String × ℚ) × Tracker
  | [], best, t => (best, t)
  | a :: rest, best, t =>
    match caps a with
    | none => assignLoop caps perfData reqs now rest best t
    | some c =>
      let workload_factor := calculate_workload_factor now (t a)
      let t' : Tracker := Function.update t a (pruneWorkload now (t a))
      let total := calculate_capability_match c reqs
                     * performance_factor perfData a * workload_factor
      if best.2 < total then assignLoop caps perfData reqs now rest (some a, total) t'
      else assignLoop caps perfData reqs now rest best t'

/-- Embedding of IntelligentTaskAssignment.assign_optimal_task, returning
the chosen agent (if any) and the updated workload tracker.  Note the
Python source guards the workload-recording step with the truthiness of
the agent name, so an agent named by the empty string is returned but
gains no workload entry. -/
def assign_optimal_task (caps : String → Option (List (String × ℚ)))
    (perfData : String → Option ℚ) (task : Task) (available : List String)
    (now : Time) (t : Tracker) : Option String × Tracker :=
  if available.isEmpty then (none, t)
  else
    let r := assignLoop caps perfData task.required_skills now available (none, 0) t
    match r.1.1 with
    | none => (none, r.2)
    | some b =>
      if b = "" then (some b, r.2)
      else (some b, Function.update r.2 b (r.2 b ++
        [{ task_id := task.id, assigned_at := now,
           complexity := task.complexity, priority := task.priority }]))

/-- The score a candidate receives in assign_optimal_task, as a pure
function of the pre-call tracker state (0 for candidates with no
registered capability vector, matching their exclusion from the loop). -/
def pureScore (caps : String → Option (List (String × ℚ)))
    (perfData : String → Option ℚ) (reqs : List (String × ℚ)) (now : Time)
    (t : Tracker) (a : String) : ℚ :=
  match caps a with
  | none => 0
  | some c =>
    calculate_capability_match c reqs * performance_factor perfData a
      * calculate_workload_factor now (t a)

/-- The pure argmax fold underlying the candidate loop: same selection
logic over an abstract score function and registration predicate. -/
def bestFold (score : String → ℚ) (reg : String → Bool) :
    List String → Option String × ℚ → Option String × ℚ
  | [], b => b
  | a :: rest, b =>
    if reg a then
      if b.2 < score a then bestFold score reg rest (some a, score a)
      else bestFold score reg rest b
    else bestFold score reg rest b

/-! ## QualityGateEngine: AutomatedQualityGates -/

/-- A rule's check source: either a context key or a registered evaluator
(which may fail, modelling a raised exception). -/
inductive CheckSource where
  | key : String → CheckSource
  | evaluator : ((String → Option ℚ) → Except String ℚ) → CheckSource

/-- A registered quality rule (comparison holds the rule's operator,
defaulting at construction as in the source; message is the optional
rule-supplied template). -/
structure QualityRule where
  name : String
  check_function : CheckSource
  severity : String
  threshold : ℚ
  comparison : String
  message : Option String

/-- Embedding of AutomatedQualityGates._evaluate_threshold: the five
recognised operators, and an automatic pass for anything else. -/
def evaluate_threshold (actual threshold : ℚ) (comparison : String) : Bool :=
  if comparison = ">=" then decide (threshold ≤ actual)
  else if comparison = "<=" then decide (actual ≤ threshold)
  else if comparison = ">" then decide (threshold < actual)
  else if comparison = "<" then decide (actual < threshold)
  else if comparison = "==" then decide (actual = threshold)
  else true

/-- One outcome record of a gate run (actual_value and threshold are
absent on the exception path). -/
structure Outcome where
  rule_name : String
  status : String
  actual_value : Option ℚ
  threshold : Option ℚ
  severity : String
  message : String
deriving DecidableEq

/-- Embedding of AutomatedQualityGates._execute_quality_check: resolve the
actual value (a raising evaluator propagates as .error), compare against
the threshold, and build the outcome record. -/
def execute_quality_check (rule : QualityRule) (ctx : String → Option ℚ) :
    Except String Outcome :=
  let actualE : Except String ℚ :=
    match rule.check_function with
    | .key k => .ok ((ctx k).getD 0)
    | .evaluator f => f ctx
  match actualE with
  | .error e => .error e
  | .ok actual =>
    let passed := evaluate_threshold actual rule.threshold rule.comparison
    .ok { rule_name := rule.name
          status := if passed then "passed" else "failed"
          actual_value := some actual
          threshold := some rule.threshold
          severity := rule.severity
          message := rule.message.getD (rule.name ++ ": actual vs threshold") }

/-- The error record built in the except-branch of check_quality_gates. -/
def errorOutcome (rule : QualityRule) (e : String) : Outcome :=
  { rule_name := rule.name, status := "error", actual_value := none
    threshold := none, severity := "error"
    message := "Quality check failed to execute: " ++ e }

/-- The single outcome record a rule produces in a gate run: the check
result, or the error record when its evaluator raises. -/
def ruleOutcome (ctx : String → Option ℚ) (rule : QualityRule) : Outcome :=
  match execute_quality_check rule ctx with
  | .ok c => c
  | .error e => errorOutcome rule e

/-- The aggregate result record of one gate run. -/
structure QualityRunResult where
  project : String
  passed : Bool
  checks : List Outcome
  warnings : List Outcome
  errors : List Outcome

/-- The per-rule body of the check_quality_gates loop, including the
exception handler. -/
def gateStep (ctx : String → Option ℚ) (r : QualityRunResult)
    (rule : QualityRule) : QualityRunResult :=
  match execute_quality_check rule ctx with
  | .ok c =>
    let r1 := { r with checks := r.checks ++ [c] }
    if c.status = "failed" then
      if c.severity = "error" then
        { r1 with passed := false, errors := r1.errors ++ [c] }
      else
        { r1 with passed := false, warnings := r1.warnings ++ [c] }
    else r1
  | .error e => { r with passed := false, errors := r.errors ++ [errorOutcome rule e] }

/-- Embedding of AutomatedQualityGates.check_quality_gates. -/
def check_quality_gates (rules : List QualityRule) (project : String)
    (ctx : String → Option ℚ) : QualityRunResult :=
  rules.foldl (gateStep ctx)
    { project := project, passed := true, checks := [], warnings := [], errors := [] }

/-- Outcomes recorded in the checks list (the two check statuses). -/
def isCheckRecord (o : Outcome) : Bool := !(o.status == "error")

/-- Outcomes recorded in the errors list. -/
def isErrorRecord (o : Outcome) : Bool :=
  (o.status == "failed" && o.severity == "error") || o.status == "error"

/-- Outcomes recorded in the warnings list. -/
def isWarningRecord (o : Outcome) : Bool :=
  o.status == "failed" && !(o.severity == "error")

/-- Outcomes that leave the overall passed flag intact. -/
def isGoodRecord (o : Outcome) : Bool :=
  !(o.status == "failed") && !(o.status == "error")

/-! ## HealthSupervisor: AgentHealthMonitor -/

/-- Per-agent health record (last_response, consecutive_failures) together
with its config fields (max_failures, recovery_strategy), defaults applied
at registration. -/
structure HealthInfo where
  target : String
  last_response : Time
  consecutive_failures : ℕ
  max_failures : ℕ
  recovery_strategy : String
deriving DecidableEq

/-- Whether pat occurs at the head of s. -/
def headMatches : List Char → List Char → Bool
  | [], _ => true
  | _ :: _, [] => false
  | p :: ps, c :: cs => (p == c) && headMatches ps cs

/-- Python substring containment: pat occurs contiguously somewhere in s. -/
def hasSubstring (pat : List Char) : List Char → Bool
  | [] => headMatches pat []
  | c :: rest => headMatches pat (c :: rest) || hasSubstring pat rest

/-- The liveness marker scanned for in captured output. -/
def healthyMarker : List Char := "HEALTHY".toList

/-- Python s[-n:]: the last n characters of the captured output. -/
def lastChars (n : ℕ) (s : List Char) : List Char := s.drop (s.length - n)

/-- Embedding of AgentHealthMonitor.check_agent_health, parameterised by
the outcome of the probe send and the captured pane output (the
Communicator boundary).  Returns the health verdict and the updated
registry. -/
def check_agent_health (checks : String → Option HealthInfo) (sendOk : Bool)
    (output : List Char) (now : Time) (agent : String) :
    Bool × (String → Option HealthInfo) :=
  match checks agent with
  | none => (false, checks)
  | some info =>
    if !sendOk then
      (false, Function.update checks agent
        (some { info with consecutive_failures := info.consecutive_failures + 1 }))
    else if hasSubstring healthyMarker (lastChars 500 output) then
      (true, Function.update checks agent
        (some { info with last_response := now, consecutive_failures := 0 }))
    else
      (false, Function.update checks agent
        (some { info with consecutive_failures := info.consecutive_failures + 1 }))

/-- Embedding of AgentHealthMonitor.restart_agent.  The two tmux
send-keys subprocess calls run with check=True, so either raising aborts
the body before the counter reset (interruptOk, relaunchOk model those
two calls).  The reinitialisation send_message returns a boolean that the
source ignores (reinitSendOk), and no verification re-probe is made. -/
def restart_agent (interruptOk relaunchOk reinitSendOk : Bool) (now : Time)
    (info : HealthInfo) : HealthInfo :=
  if interruptOk && relaunchOk then
    { info with consecutive_failures := 0, last_response := now }
  else info

/-- The health states of the supervision state machine. -/
inductive HState where
  | Healthy
  | Suspect
  | Unhealthy
deriving DecidableEq

/-- Modelled from the spec: the source stores only the counter and
timestamps, and spec section 4.1 derives the state from the
consecutive-failure counter relative to max_failures. -/
def healthState (info : HealthInfo) : HState :=
  if info.consecutive_failures = 0 then .Healthy
  else if info.consecutive_failures < info.max_failures then .Suspect
  else .Unhealthy

/-! ## Theorems -/

/-- C5: _calculate_trend returns true for every sequence with fewer than
two values; for length at least two it splits at the floor-division
midpoint, averages each half, and returns true iff the second half's
average strictly exceeds the first half's; [0.5] yields true,
[0.9, 0.9, 0.1, 0.1] yields false, and [0.1, 0.1, 0.9, 0.9] yields true. -/
theorem calculate_trend_spec :
    (∀ v : List ℚ, v.length < 2 → calculate_trend v = true)
  ∧ (∀ v : List ℚ, 2 ≤ v.length →
      (calculate_trend v = true ↔
        (v.take (v.length / 2)).sum / ((v.length / 2 : ℕ) : ℚ)
          < (v.drop (v.length / 2)).sum / ((v.length - v.length / 2 : ℕ) : ℚ)))
  ∧ calculate_trend [1/2] = true
  ∧ calculate_trend [9/10, 9/10, 1/10, 1/10] = false
  ∧ calculate_trend [1/10, 1/10, 9/10, 9/10] = true := by
  refine ⟨?_, ?_, ?_, ?_, ?_⟩
  · intro v h
    simp [calculate_trend, h]
  · intro v h
    have h2 : ¬ v.length < 2 := by omega
    simp [calculate_trend, h2]
  · norm_num [calculate_trend]
  · norm_num [calculate_trend]
  · norm_num [calculate_trend]

/-- C5 witness: the half-average comparison at concrete inputs. -/
theorem calculate_trend_spec_witness : calculate_trend [(3 : ℚ)] = true :=
  calculate_trend_spec.1 [(3 : ℚ)] (by norm_num)

/-- C4 counterexample: the workload factor is not strictly decreasing in
the summed complexity — it is clamped at 1/10 from s = 9 on, so s = 9 and
s = 19 give the same factor. -/
theorem workload_factor_not_strictly_decreasing :
    ¬ (∀ s1 s2 : ℚ, 0 ≤ s1 → s1 < s2 → workloadFactorOf s2 < workloadFactorOf s1) := by
  intro h
  have h9 : workloadFactorOf 9 = 1/10 := by norm_num [workloadFactorOf]
  have h19 : workloadFactorOf 19 = 1/10 := by norm_num [workloadFactorOf]
  have hlt := h 9 19 (by norm_num) (by norm_num)
  rw [h9, h19] at hlt
  exact lt_irrefl _ hlt

/-- C4 (amended): for nonnegative summed complexity the workload factor
max(0.1, 1/(1+s)) lies in [1/10, 1] (hence in (0, 1]), is weakly
decreasing, strictly decreasing on [0, 9], and constantly 1/10 from 9 on;
and _calculate_workload_factor is this factor of the summed complexity of
the pruned (non-expired) workload entries. -/
theorem workload_factor_spec :
    (∀ s : ℚ, 0 ≤ s → 1/10 ≤ workloadFactorOf s ∧ workloadFactorOf s ≤ 1)
  ∧ (∀ s1 s2 : ℚ, 0 ≤ s1 → s1 ≤ s2 → workloadFactorOf s2 ≤ workloadFactorOf s1)
  ∧ (∀ s1 s2 : ℚ, 0 ≤ s1 → s1 < s2 → s2 ≤ 9 → workloadFactorOf s2 < workloadFactorOf s1)
  ∧ (∀ s : ℚ, 9 ≤ s → workloadFactorOf s = 1/10)
  ∧ (∀ (now : Time) (l : List WorkloadEntry),
      calculate_workload_factor now l
        = workloadFactorOf (sumComplexity (pruneWorkload now l))) := by
  refine ⟨?_, ?_, ?_, ?_, fun now l => rfl⟩
  · intro s hs
    constructor
    · exact le_max_left _ _
    · apply max_le (by norm_num)
      rw [div_le_one (by linarith)]
      linarith
  · intro s1 s2 h1 h12
    apply max_le_max le_rfl
    apply one_div_le_one_div_of_le (by linarith)
    linarith
  · intro s1 s2 h1 h12 h9
    have hpos1 : (0 : ℚ) < 1 + s1 := by linarith
    have hpos2 : (0 : ℚ) < 1 + s2 := by linarith
    have hc2 : (1 : ℚ)/10 ≤ 1/(1 + s2) := by
      apply one_div_le_one_div_of_le hpos2
      linarith
    have hc1 : (1 : ℚ)/10 ≤ 1/(1 + s1) := by
      apply one_div_le_one_div_of_le hpos1
      linarith
    rw [workloadFactorOf, workloadFactorOf, max_eq_right hc2, max_eq_right hc1]
    exact one_div_lt_one_div_of_lt hpos1 (by linarith)
  · intro s hs
    have hle : 1/(1 + s) ≤ (1 : ℚ)/10 := by
      apply one_div_le_one_div_of_le (by norm_num)
      linarith
    rw [workloadFactorOf, max_eq_left hle]

/-- C4 witness: the amended monotonicity at concrete points. -/
theorem workload_factor_spec_witness :
    workloadFactorOf 2 < workloadFactorOf 1 ∧ workloadFactorOf 12 = 1/10 :=
  ⟨workload_factor_spec.2.2.1 1 2 (by norm_num) (by norm_num) (by norm_num),
   workload_factor_spec.2.2.2.1 12 (by norm_num)⟩

/-- The capability-match fold keeps a nonpositive total match when the
agent has no registered skills. -/
theorem capMatch_foldl_nonpos_of_empty :
    ∀ (reqs : List (String × ℚ)) (acc : ℚ × ℚ), acc.1 ≤ 0 →
      (reqs.foldl (capMatchStep []) acc).1 ≤ 0 := by
  intro reqs
  induction reqs with
  | nil => intro acc h; simpa using h
  | cons sr rest ih =>
    intro acc h
    rw [List.foldl_cons]
    apply ih
    by_cases hw : 0 < sr.2
    · simp [capMatchStep, dictGet, hw, zero_div]
      linarith
    · simp [capMatchStep, dictGet, hw]
      push_neg at hw
      linarith

/-- C7 counterexample: a non-empty required-skills map can still give
capability match 1.0 — an agent meeting the requirement exactly does. -/
theorem capability_match_nonempty_can_be_one :
    ¬ (∀ caps reqs : List (String × ℚ), reqs ≠ [] →
        calculate_capability_match caps reqs ≠ 1) := by
  intro h
  exact h [("x", 1)] [("x", 1)] (by simp)
    (by norm_num [calculate_capability_match, capMatchStep, dictGet, List.find?])

/-- C7 (amended): the capability match is 1.0 for every agent exactly when
the required-skills map is empty — an empty map gives 1.0 for all agents,
and every non-empty map admits an agent (one with no registered skills)
whose match is not 1.0. -/
theorem capability_match_one_for_all_iff (reqs : List (String × ℚ)) :
    (∀ caps : List (String × ℚ), calculate_capability_match caps reqs = 1)
      ↔ reqs = [] := by
  constructor
  · intro h
    by_contra hne
    have h1 := h []
    have hle : calculate_capability_match [] reqs ≤ 0 := by
      rw [calculate_capability_match]
      rw [if_neg (by simpa [List.isEmpty_iff] using hne)]
      have hm := capMatch_foldl_nonpos_of_empty reqs (0, 0) le_rfl
      by_cases hw : 0 < (reqs.foldl (capMatchStep []) (0, 0)).2
      · rw [if_pos hw]
        exact div_nonpos_of_nonpos_of_nonneg hm (le_of_lt hw)
      · rw [if_neg hw]
    rw [h1] at hle
    norm_num at hle
  · rintro rfl caps
    simp [calculate_capability_match]

/-- C7 witness: the amended equivalence applied at the empty map. -/
theorem capability_match_one_for_all_iff_witness :
    calculate_capability_match [("y", 1)] [] = 1 :=
  (capability_match_one_for_all_iff []).mpr rfl [("y", 1)]

/-- C1 counterexample: when the tmux interrupt step raises (modelled by
interruptOk = false), restart_agent leaves the consecutive-failure counter
untouched, so it is not 0 and the state is not Healthy. -/
theorem restart_agent_failure_keeps_counter :
    (restart_agent false true true 99
      { target := "t", last_response := 0, consecutive_failures := 3,
        max_failures := 3, recovery_strategy := "restart" }).consecutive_failures ≠ 0
  ∧ healthState (restart_agent false true true 99
      { target := "t", last_response := 0, consecutive_failures := 3,
        max_failures := 3, recovery_strategy := "restart" }) ≠ HState.Healthy := by
  constructor
  · simp [restart_agent]
  · simp [restart_agent, healthState]

/-- C1 (amended): when the interrupt and relaunch subprocess steps both
complete without raising, restart_agent resets the failure counter to 0
and sets last_response to the current time (derived state Healthy),
independently of the ignored reinitialisation send result (no
verification re-probe); when either step raises, the record is left
completely unchanged. -/
theorem restart_agent_spec (iOk rOk reinitOk : Bool) (now : Time) (info : HealthInfo) :
    (iOk = true → rOk = true →
      (restart_agent iOk rOk reinitOk now info).consecutive_failures = 0
      ∧ (restart_agent iOk rOk reinitOk now info).last_response = now
      ∧ healthState (restart_agent iOk rOk reinitOk now info) = HState.Healthy)
  ∧ ((iOk && rOk) = false → restart_agent iOk rOk reinitOk now info = info)
  ∧ restart_agent iOk rOk true now info = restart_agent iOk rOk false now info := by
  refine ⟨?_, ?_, ?_⟩
  · rintro rfl rfl
    simp [restart_agent, healthState]
  · intro h
    simp [restart_agent, h]
  · cases iOk <;> cases rOk <;> rfl

/-- C1 witness: a successful restart at a concrete record. -/
theorem restart_agent_spec_witness :
    (restart_agent true true true 7
      { target := "t", last_response := 0, consecutive_failures := 5,
        max_failures := 3, recovery_strategy := "restart" }).consecutive_failures = 0
  ∧ healthState (restart_agent true true true 7
      { target := "t", last_response := 0, consecutive_failures := 5,
        max_failures := 3, recovery_strategy := "restart" }) = HState.Healthy := by
  have h := (restart_agent_spec true true true 7
    { target := "t", last_response := 0, consecutive_failures := 5,
      max_failures := 3, recovery_strategy := "restart" }).1 rfl rfl
  exact ⟨h.1, h.2.2⟩

/-- C8: for a registered agent whose probe send succeeds,
check_agent_health reports healthy exactly when "HEALTHY" occurs within
the last 500 characters of the captured output (so an occurrence only
outside that window never counts), and on a match the failure counter is
reset to 0 with last_response set to now. -/
theorem check_agent_health_marker (checks : String → Option HealthInfo)
    (agent : String) (info : HealthInfo) (output : List Char) (now : Time)
    (hreg : checks agent = some info) :
    ((check_agent_health checks true output now agent).1 = true
      ↔ hasSubstring healthyMarker (lastChars 500 output) = true)
  ∧ ((check_agent_health checks true output now agent).1 = true →
      (check_agent_health checks true output now agent).2 agent
        = some { info with last_response := now, consecutive_failures := 0 }) := by
  rw [check_agent_health, hreg]
  cases h : hasSubstring healthyMarker (lastChars 500 output) with
  | true => simp [h]
  | false => simp [h]

set_option maxRecDepth 20000 in
/-- C8 witness: a marker inside the window is detected and resets the
counter; a marker pushed outside the last 500 characters is not. -/
theorem check_agent_health_marker_witness :
    (check_agent_health
      (fun a => if a = "agent1" then
        some { target := "t", last_response := 0, consecutive_failures := 2,
               max_failures := 3, recovery_strategy := "restart" } else none)
      true ("ok HEALTHY done".toList) 5 "agent1").1 = true
  ∧ (check_agent_health
      (fun a => if a = "agent1" then
        some { target := "t", last_response := 0, consecutive_failures := 2,
               max_failures := 3, recovery_strategy := "restart" } else none)
      true ("ok HEALTHY done".toList) 5 "agent1").2 "agent1"
      = some { target := "t", last_response := 5, consecutive_failures := 0,
               max_failures := 3, recovery_strategy := "restart" }
  ∧ (check_agent_health
      (fun a => if a = "agent1" then
        some { target := "t", last_response := 0, consecutive_failures := 2,
               max_failures := 3, recovery_strategy := "restart" } else none)
      true ("HEALTHY".toList ++ List.replicate 500 'x') 5 "agent1").1 = false := by
  have hin := check_agent_health_marker
    (fun a => if a = "agent1" then
      some { target := "t", last_response := 0, consecutive_failures := 2,
             max_failures := 3, recovery_strategy := "restart" } else none)
    "agent1"
    { target := "t", last_response := 0, consecutive_failures := 2,
      max_failures := 3, recovery_strategy := "restart" }
    ("ok HEALTHY done".toList) 5 (by simp)
  have hout := check_agent_health_marker
    (fun a => if a = "agent1" then
      some { target := "t", last_response := 0, consecutive_failures := 2,
             max_failures := 3, recovery_strategy := "restart" } else none)
    "agent1"
    { target := "t", last_response := 0, consecutive_failures := 2,
      max_failures := 3, recovery_strategy := "restart" }
    ("HEALTHY".toList ++ List.replicate 500 'x') 5 (by simp)
  refine ⟨hin.1.mpr (by decide), ?_, ?_⟩
  · exact hin.2 (hin.1.mpr (by decide))
  · have hmiss : hasSubstring healthyMarker
        (lastChars 500 ("HEALTHY".toList ++ List.replicate 500 'x')) = false := by decide
    rw [hmiss] at hout
    simpa using hout.1

/-- Pruning is idempotent: a pruned workload list prunes to itself. -/
theorem pruneWorkload_idem (now : Time) (l : List WorkloadEntry) :
    pruneWorkload now (pruneWorkload now l) = pruneWorkload now l := by
  simp [pruneWorkload, List.filter_filter]

/-- Replacing one agent's workload list by its pruned form does not change
any agent's workload factor. -/
theorem workload_factor_update (now : Time) (t : Tracker) (a x : String) :
    calculate_workload_factor now (Function.update t a (pruneWorkload now (t a)) x)
      = calculate_workload_factor now (t x) := by
  rcases eq_or_ne x a with rfl | hx
  · rw [Function.update_same]
    unfold calculate_workload_factor
    rw [pruneWorkload_idem]
  · rw [Function.update_noteq hx]

/-- The pure per-candidate score is invariant under the pruning updates
the candidate loop performs on the tracker. -/
theorem pureScore_update (caps : String → Option (List (String × ℚ)))
    (perfData : String → Option ℚ) (reqs : List (String × ℚ)) (now : Time)
    (t : Tracker) (a : String) :
    pureScore caps perfData reqs now (Function.update t a (pruneWorkload now (t a)))
      = pureScore caps perfData reqs now t := by
  funext x
  unfold pureScore
  cases h : caps x
  · rfl
  · rw [workload_factor_update]

/-- A candidate with no registered capability vector has pure score 0. -/
theorem pureScore_eq_zero_of_unreg (caps : String → Option (List (String × ℚ)))
    (perfData : String → Option ℚ) (reqs : List (String × ℚ)) (now : Time)
    (t : Tracker) (a : String) (h : caps a = none) :
    pureScore caps perfData reqs now t a = 0 := by
  simp [pureScore, h]

/-- The selection component of the candidate loop coincides with the pure
argmax fold over the pre-call scores. -/
theorem assignLoop_fst (caps : String → Option (List (String × ℚ)))
    (perfData : String → Option ℚ) (reqs : List (String × ℚ)) (now : Time) :
    ∀ (l : List String) (b : Option String × ℚ) (t : Tracker),
      (assignLoop caps perfData reqs now l b t).1
        = bestFold (pureScore caps perfData reqs now t) (fun a => (caps a).isSome) l b := by
  intro l
  induction l with
  | nil => intro b t; rfl
  | cons a rest ih =>
    intro b t
    simp only [assignLoop]
    split
    next h =>
      simp only [bestFold, h, Option.isSome_none, Bool.false_eq_true, if_false]
      exact ih b t
    next c h =>
      have hsc : pureScore caps perfData reqs now t a
          = calculate_capability_match c reqs * performance_factor perfData a
            * calculate_workload_factor now (t a) := by
        simp [pureScore, h]
      simp only [bestFold, h, Option.isSome_some, if_true]
      rw [← hsc]
      by_cases hlt : b.2 < pureScore caps perfData reqs now t a
      · rw [if_pos hlt, if_pos hlt, ih, pureScore_update]
      · rw [if_neg hlt, if_neg hlt, ih, pureScore_update]

/-- The tracker component of the candidate loop: every candidate with a
registered capability vector has its list pruned; all other lists are
untouched. -/
theorem assignLoop_snd (caps : String → Option (List (String × ℚ)))
    (perfData : String → Option ℚ) (reqs : List (String × ℚ)) (now : Time) :
    ∀ (l : List String) (b : Option String × ℚ) (t : Tracker) (x : String),
      (assignLoop caps perfData reqs now l b t).2 x
        = if (caps x).isSome = true ∧ x ∈ l then pruneWorkload now (t x) else t x := by
  intro l
  induction l with
  | nil => intro b t x; simp [assignLoop]
  | cons a rest ih =>
    intro b t x
    simp only [assignLoop]
    split
    next h =>
      rw [ih]
      rcases eq_or_ne x a with rfl | hx
      · simp [h]
      · simp [List.mem_cons, hx]
    next c h =>
      have hstep : ∀ (b' : Option String × ℚ),
          (assignLoop caps perfData reqs now rest b'
            (Function.update t a (pruneWorkload now (t a)))).2 x
            = if (caps x).isSome = true ∧ x ∈ a :: rest
              then pruneWorkload now (t x) else t x := by
        intro b'
        rw [ih]
        rcases eq_or_ne x a with rfl | hx
        · rw [Function.update_same]
          by_cases hm : x ∈ rest
          · simp [h, hm, pruneWorkload_idem]
          · simp [h, hm]
        · rw [Function.update_noteq hx]
          by_cases hm : x ∈ rest
          · simp [List.mem_cons, hx, hm]
          · simp [List.mem_cons, hx, hm]
      split
      · exact hstep _
      · exact hstep _

/-- Full characterisation of the argmax fold: either nothing beats the
accumulator (and it is returned unchanged), or the result is the first
element whose score strictly exceeds the accumulator and is maximal. -/
theorem bestFold_spec (score : String → ℚ) (reg : String → Bool) :
    ∀ (l : List String) (bA : Option String) (bS : ℚ),
      (bestFold score reg l (bA, bS) = (bA, bS)
        ∧ ∀ a ∈ l, reg a = true → score a ≤ bS)
      ∨ (∃ b p q, l = p ++ b :: q ∧ reg b = true ∧ bS < score b
          ∧ bestFold score reg l (bA, bS) = (some b, score b)
          ∧ (∀ a ∈ l, reg a = true → score a ≤ score b)
          ∧ (∀ a ∈ p, reg a = true → score a < score b)) := by
  intro l
  induction l with
  | nil => intro bA bS; exact Or.inl ⟨rfl, by simp⟩
  | cons a rest ih =>
    intro bA bS
    by_cases hr : reg a = true
    · by_cases hlt : bS < score a
      · have hrec : bestFold score reg (a :: rest) (bA, bS)
            = bestFold score reg rest (some a, score a) := by
          simp [bestFold, hr, hlt]
        rcases ih (some a) (score a) with ⟨heq, hall⟩ | ⟨b, p, q, hl, hb, hlt2, heq, hall, hprev⟩
        · refine Or.inr ⟨a, [], rest, rfl, hr, hlt, by rw [hrec, heq], ?_, by simp⟩
          intro x hx hrx
          rcases List.mem_cons.mp hx with rfl | hx'
          · exact le_rfl
          · exact hall x hx' hrx
        · refine Or.inr ⟨b, a :: p, q, by rw [hl]; rfl, hb, lt_trans hlt hlt2,
            by rw [hrec, heq], ?_, ?_⟩
          · intro x hx hrx
            rcases List.mem_cons.mp hx with rfl | hx'
            · exact le_of_lt hlt2
            · exact hall x hx' hrx
          · intro x hx hrx
            rcases List.mem_cons.mp hx with rfl | hx'
            · exact hlt2
            · exact hprev x hx' hrx
      · have hle : score a ≤ bS := not_lt.mp hlt
        have hrec : bestFold score reg (a :: rest) (bA, bS)
            = bestFold score reg rest (bA, bS) := by
          simp [bestFold, hr, hlt]
        rcases ih bA bS with ⟨heq, hall⟩ | ⟨b, p, q, hl, hb, hlt2, heq, hall, hprev⟩
        · refine Or.inl ⟨by rw [hrec, heq], ?_⟩
          intro x hx hrx
          rcases List.mem_cons.mp hx with rfl | hx'
          · exact hle
          · exact hall x hx' hrx
        · refine Or.inr ⟨b, a :: p, q, by rw [hl]; rfl, hb, hlt2, by rw [hrec, heq], ?_, ?_⟩
          · intro x hx hrx
            rcases List.mem_cons.mp hx with rfl | hx'
            · exact le_of_lt (lt_of_le_of_lt hle hlt2)
            · exact hall x hx' hrx
          · intro x hx hrx
            rcases List.mem_cons.mp hx with rfl | hx'
            · exact lt_of_le_of_lt hle hlt2
            · exact hprev x hx' hrx
    · have hrec : bestFold score reg (a :: rest) (bA, bS)
          = bestFold score reg rest (bA, bS) := by
        simp [bestFold, hr]
      rcases ih bA bS with ⟨heq, hall⟩ | ⟨b, p, q, hl, hb, hlt2, heq, hall, hprev⟩
      · refine Or.inl ⟨by rw [hrec, heq], ?_⟩
        intro x hx hrx
        rcases List.mem_cons.mp hx with rfl | hx'
        · exact absurd hrx hr
        · exact hall x hx' hrx
      · refine Or.inr ⟨b, a :: p, q, by rw [hl]; rfl, hb, hlt2, by rw [hrec, heq], ?_, ?_⟩
        · intro x hx hrx
          rcases List.mem_cons.mp hx with rfl | hx'
          · exact absurd hrx hr
          · exact hall x hx' hrx
        · intro x hx hrx
          rcases List.mem_cons.mp hx with rfl | hx'
          · exact absurd hrx hr
          · exact hprev x hx' hrx

/-- Unfolding of assign_optimal_task on a non-empty candidate list. -/
theorem assign_optimal_task_cons (caps : String → Option (List (String × ℚ)))
    (perfData : String → Option ℚ) (task : Task) (a0 : String)
    (rest : List String) (now : Time) (t : Tracker) :
    assign_optimal_task caps perfData task (a0 :: rest) now t
      = (match (assignLoop caps perfData task.required_skills now (a0 :: rest) (none, 0) t).1.1 with
         | none => (none,
             (assignLoop caps perfData task.required_skills now (a0 :: rest) (none, 0) t).2)
         | some b =>
           if b = "" then (some b,
             (assignLoop caps perfData task.required_skills now (a0 :: rest) (none, 0) t).2)
           else (some b, Function.update
             (assignLoop caps perfData task.required_skills now (a0 :: rest) (none, 0) t).2 b
             ((assignLoop caps perfData task.required_skills now (a0 :: rest) (none, 0) t).2 b ++
               [{ task_id := task.id, assigned_at := now,
                  complexity := task.complexity, priority := task.priority }]))) := rfl

/-- C3 counterexample: a non-empty candidate list whose only member has a
registered capability vector, yet assign_optimal_task returns no
assignment, because the candidate's combined score is 0 (not strictly
greater than the initial best score 0). -/
theorem assign_optimal_task_zero_score_cex :
    ("A" ∈ (["A"] : List String))
  ∧ ((fun a => if a = "A" then some ([] : List (String × ℚ)) else none) "A").isSome = true
  ∧ (assign_optimal_task (fun a => if a = "A" then some [] else none) (fun _ => none)
      { id := "t1", required_skills := [("x", 1)], priority := "medium", complexity := 1/2 }
      ["A"] 0 (fun _ => [])).1 = none := by
  refine ⟨by simp, by simp, ?_⟩
  norm_num [assign_optimal_task, assignLoop, calculate_capability_match, capMatchStep,
    dictGet, List.find?, performance_factor, calculate_workload_factor, pruneWorkload,
    sumComplexity, workloadFactorOf, min_def]

/-- C3 (amended): assign_optimal_task returns none on an empty candidate
list or when no candidate is registered; any returned agent is a
registered candidate with strictly positive score that is maximal among
all candidates (taking unregistered candidates as score 0) and is the
first candidate attaining that maximum; and whenever some candidate has
strictly positive score, an agent is returned.  (The original claim fails
when every registered candidate scores 0: the result is then none.) -/
theorem assign_optimal_task_selects_best (caps : String → Option (List (String × ℚ)))
    (perfData : String → Option ℚ) (task : Task) (available : List String)
    (now : Time) (t : Tracker) :
    (available = [] → (assign_optimal_task caps perfData task available now t).1 = none)
  ∧ ((∀ a ∈ available, caps a = none) →
      (assign_optimal_task caps perfData task available now t).1 = none)
  ∧ (∀ b, (assign_optimal_task caps perfData task available now t).1 = some b →
      b ∈ available ∧ (caps b).isSome = true
      ∧ 0 < pureScore caps perfData task.required_skills now t b
      ∧ (∀ a ∈ available,
          pureScore caps perfData task.required_skills now t a
            ≤ pureScore caps perfData task.required_skills now t b)
      ∧ ∃ p q, available = p ++ b :: q
          ∧ ∀ a ∈ p, pureScore caps perfData task.required_skills now t a
              < pureScore caps perfData task.required_skills now t b)
  ∧ ((∃ a ∈ available, 0 < pureScore caps perfData task.required_skills now t a) →
      ∃ b, (assign_optimal_task caps perfData task available now t).1 = some b) := by
  cases available with
  | nil =>
    refine ⟨fun _ => rfl, fun _ => rfl, fun b hb => ?_, fun h => ?_⟩
    · exact absurd hb (by simp [assign_optimal_task])
    · rcases h with ⟨a, ha, _⟩
      exact absurd ha (List.not_mem_nil a)
  | cons a0 rest =>
    have hfst : (assign_optimal_task caps perfData task (a0 :: rest) now t).1
        = (bestFold (pureScore caps perfData task.required_skills now t)
            (fun x => (caps x).isSome) (a0 :: rest) (none, 0)).1 := by
      rw [assign_optimal_task_cons, ← assignLoop_fst]
      rcases hA : (assignLoop caps perfData task.required_skills now (a0 :: rest)
          (none, 0) t).1.1 with _ | b
      · simp [hA]
      · by_cases hbe : b = "" <;> simp [hA, hbe]
    have hbf := bestFold_spec (pureScore caps perfData task.required_skills now t)
      (fun x => (caps x).isSome) (a0 :: rest) none 0
    refine ⟨fun h => absurd h (by simp), ?_, ?_, ?_⟩
    · intro hall
      rcases hbf with ⟨heq, _⟩ | ⟨b, p, q, hl, hb, _, _, _, _⟩
      · rw [hfst, heq]
      · exfalso
        have hbmem : b ∈ a0 :: rest := by
          rw [hl]
          exact List.mem_append_right p (List.mem_cons_self b q)
        rw [hall b hbmem] at hb
        simp at hb
    · intro b hb
      rw [hfst] at hb
      rcases hbf with ⟨heq, _⟩ | ⟨b', p, q, hl, hb', hpos, heq, hall2, hprev⟩
      · rw [heq] at hb
        exact absurd hb (by simp)
      · rw [heq] at hb
        have hbb : b' = b := by simpa using hb
        subst hbb
        have hmem : b' ∈ a0 :: rest := by
          rw [hl]
          exact List.mem_append_right p (List.mem_cons_self b' q)
        refine ⟨hmem, hb', hpos, ?_, p, q, hl, ?_⟩
        · intro x hx
          cases hcx : caps x with
          | none =>
            rw [pureScore_eq_zero_of_unreg caps perfData task.required_skills now t x hcx]
            exact le_of_lt hpos
          | some cx => exact hall2 x hx (by simp [hcx])
        · intro x hx
          cases hcx : caps x with
          | none =>
            rw [pureScore_eq_zero_of_unreg caps perfData task.required_skills now t x hcx]
            exact hpos
          | some cx => exact hprev x hx (by simp [hcx])
    · rintro ⟨a, ha, hpos⟩
      rcases hbf with ⟨_, hall⟩ | ⟨b, p, q, hl, hb, _, heq, _, _⟩
      · exfalso
        have hreg : (caps a).isSome = true := by
          cases hcx : caps a with
          | none =>
            rw [pureScore_eq_zero_of_unreg caps perfData task.required_skills now t a hcx]
              at hpos
            exact absurd hpos (lt_irrefl 0)
          | some cx => simp
        have := hall a ha hreg
        linarith
      · refine ⟨b, ?_⟩
        rw [hfst, heq]

/-- C3 witness: with one registered candidate of positive score, an agent
is assigned. -/
theorem assign_optimal_task_selects_best_witness :
    ∃ b, (assign_optimal_task
      (fun a => if a = "A" then some [("x", 9/10)] else none)
      (fun _ => none)
      { id := "t1", required_skills := [("x", 1/2)], priority := "medium", complexity := 1/2 }
      ["A"] 0 (fun _ => [])).1 = some b := by
  apply (assign_optimal_task_selects_best
    (fun a => if a = "A" then some [("x", 9/10)] else none) (fun _ => none)
    { id := "t1", required_skills := [("x", 1/2)], priority := "medium", complexity := 1/2 }
    ["A"] 0 (fun _ => [])).2.2.2
  refine ⟨"A", by simp, ?_⟩
  norm_num [pureScore, calculate_capability_match, capMatchStep, dictGet, List.find?,
    performance_factor, calculate_workload_factor, pruneWorkload, sumComplexity,
    workloadFactorOf, min_def]

/-- C10: when every candidate scores 0 (in particular when every
registered candidate has capability match 0), assign_optimal_task returns
none and appends no workload entry: every tracker list shrinks to a
sublist of its old value. -/
theorem assign_optimal_task_all_zero (caps : String → Option (List (String × ℚ)))
    (perfData : String → Option ℚ) (task : Task) (available : List String)
    (now : Time) (t : Tracker)
    (h0 : ∀ a ∈ available, pureScore caps perfData task.required_skills now t a = 0) :
    (assign_optimal_task caps perfData task available now t).1 = none
  ∧ ∀ x, List.Sublist ((assign_optimal_task caps perfData task available now t).2 x) (t x) := by
  cases available with
  | nil => exact ⟨rfl, fun x => List.Sublist.refl _⟩
  | cons a0 rest =>
    have hbf := bestFold_spec (pureScore caps perfData task.required_skills now t)
      (fun x => (caps x).isSome) (a0 :: rest) none 0
    rcases hbf with ⟨heq, _⟩ | ⟨b, p, q, hl, _, hpos, _, _, _⟩
    · have hnone : (assignLoop caps perfData task.required_skills now (a0 :: rest)
          (none, 0) t).1.1 = none := by
        have := assignLoop_fst caps perfData task.required_skills now (a0 :: rest) (none, 0) t
        rw [this, heq]
      rw [assign_optimal_task_cons]
      refine ⟨by simp [hnone], ?_⟩
      intro x
      simp only [hnone]
      rw [assignLoop_snd]
      split
      · simp only [pruneWorkload]
        exact List.filter_sublist _
      · exact List.Sublist.refl _
    · exfalso
      have hbmem : b ∈ a0 :: rest := by
        rw [hl]
        exact List.mem_append_right p (List.mem_cons_self b q)
      rw [h0 b hbmem] at hpos
      exact absurd hpos (lt_irrefl 0)

/-- C10 witness: a registered candidate whose capability match is 0 yields
no assignment. -/
theorem assign_optimal_task_all_zero_witness :
    (assign_optimal_task (fun a => if a = "B" then some [("y", 0)] else none) (fun _ => none)
      { id := "t2", required_skills := [("y", 1)], priority := "low", complexity := 1/2 }
      ["B"] 0 (fun _ => [])).1 = none := by
  have h := assign_optimal_task_all_zero
    (fun a => if a = "B" then some [("y", 0)] else none) (fun _ => none)
    { id := "t2", required_skills := [("y", 1)], priority := "low", complexity := 1/2 }
    ["B"] 0 (fun _ => [])
    (by
      intro a ha
      have ha' : a = "B" := by simpa using ha
      subst ha'
      norm_num [pureScore, calculate_capability_match, capMatchStep, dictGet, List.find?,
        performance_factor, calculate_workload_factor, pruneWorkload, sumComplexity,
        workloadFactorOf, min_def])
  exact h.1

/-- C9 counterexample: an agent named by the empty string is chosen (the
function returns it) but gains no workload entry, because the source
guards the recording step with Python truthiness of the name. -/
theorem assign_optimal_task_empty_name_cex :
    (assign_optimal_task (fun a => if a = "" then some [("x", 1)] else none) (fun _ => none)
      { id := "t1", required_skills := [("x", 1/2)], priority := "medium", complexity := 1/2 }
      [""] 0 (fun _ => [])).1 = some ""
  ∧ (assign_optimal_task (fun a => if a = "" then some [("x", 1)] else none) (fun _ => none)
      { id := "t1", required_skills := [("x", 1/2)], priority := "medium", complexity := 1/2 }
      [""] 0 (fun _ => [])).2 "" = [] := by
  constructor <;>
    norm_num [assign_optimal_task, assignLoop, calculate_capability_match, capMatchStep,
      dictGet, List.find?, performance_factor, calculate_workload_factor, pruneWorkload,
      sumComplexity, workloadFactorOf, min_def, Function.update]

/-- C9 (amended): one call to assign_optimal_task prunes the workload list
of every candidate that has a registered capability vector (removing
entries older than the 24-hour window), leaves every other list untouched,
and appends exactly one new workload entry to the chosen agent — unless
the chosen agent's name is the empty string, in which case the entry is
skipped. -/
theorem assign_optimal_task_tracker (caps : String → Option (List (String × ℚ)))
    (perfData : String → Option ℚ) (task : Task) (available : List String)
    (now : Time) (t : Tracker) :
    (∀ a, (caps a).isSome = true → a ∈ available →
      (assign_optimal_task caps perfData task available now t).2 a
        = pruneWorkload now (t a)
          ++ (if (assign_optimal_task caps perfData task available now t).1 = some a ∧ a ≠ ""
              then [{ task_id := task.id, assigned_at := now,
                      complexity := task.complexity, priority := task.priority }]
              else []))
  ∧ (∀ a, (caps a).isSome = false ∨ a ∉ available →
      (assign_optimal_task caps perfData task available now t).2 a = t a) := by
  cases available with
  | nil =>
    refine ⟨fun a _ ha => absurd ha (List.not_mem_nil a), fun a _ => rfl⟩
  | cons a0 rest =>
    have hL := assignLoop_snd caps perfData task.required_skills now (a0 :: rest) (none, 0) t
    rcases hA : (assignLoop caps perfData task.required_skills now (a0 :: rest)
        (none, 0) t).1.1 with _ | b
    · rw [assign_optimal_task_cons]
      simp only [hA]
      constructor
      · intro a hca hmem
        rw [hL a, if_pos ⟨hca, hmem⟩]
        simp
      · intro a hnot
        rw [hL a, if_neg]
        rcases hnot with hca | hmem
        · rintro ⟨hc, _⟩
          rw [hca] at hc
          exact Bool.false_ne_true hc
        · rintro ⟨_, hm⟩
          exact hmem hm
    · have hbmem : b ∈ a0 :: rest ∧ (caps b).isSome = true := by
        have hfold := assignLoop_fst caps perfData task.required_skills now (a0 :: rest)
          (none, 0) t
        rcases bestFold_spec (pureScore caps perfData task.required_skills now t)
            (fun x => (caps x).isSome) (a0 :: rest) none 0 with ⟨heq, _⟩ |
            ⟨b', p, q, hl, hb', _, heq, _, _⟩
        · rw [hfold, heq] at hA
          exact absurd hA (by simp)
        · rw [hfold, heq] at hA
          have : b' = b := by simpa using hA
          subst this
          refine ⟨?_, hb'⟩
          rw [hl]
          exact List.mem_append_right p (List.mem_cons_self b' q)
      rw [assign_optimal_task_cons]
      simp only [hA]
      by_cases hbe : b = ""
      · rw [if_pos hbe]
        constructor
        · intro a hca hmem
          rw [hL a, if_pos ⟨hca, hmem⟩]
          rw [if_neg]
          · simp
          · rintro ⟨heq, hne⟩
            have : b = a := by simpa using heq
            exact hne (by rw [← this, hbe])
        · intro a hnot
          rw [hL a, if_neg]
          rcases hnot with hca | hmem
          · rintro ⟨hc, _⟩
            rw [hca] at hc
            exact Bool.false_ne_true hc
          · rintro ⟨_, hm⟩
            exact hmem hm
      · rw [if_neg hbe]
        constructor
        · intro a hca hmem
          dsimp only
          rcases eq_or_ne a b with rfl | hab
          · rw [Function.update_same, hL a, if_pos ⟨hca, hmem⟩, if_pos ⟨rfl, hbe⟩]
          · rw [Function.update_noteq hab, hL a, if_pos ⟨hca, hmem⟩, if_neg]
            · simp
            · rintro ⟨heq, _⟩
              exact hab (Option.some.inj heq).symm
        · intro a hnot
          dsimp only
          have hab : a ≠ b := by
            rintro rfl
            rcases hnot with hca | hmem
            · rw [hbmem.2] at hca
              exact absurd hca (by simp)
            · exact hmem hbmem.1
          rw [Function.update_noteq hab, hL a, if_neg]
          rcases hnot with hca | hmem
          · rintro ⟨hc, _⟩
            rw [hca] at hc
            exact Bool.false_ne_true hc
          · rintro ⟨_, hm⟩
            exact hmem hm

/-- C9 witness: a chosen agent with a non-empty name gains exactly one
entry on an empty pruned list. -/
theorem assign_optimal_task_tracker_witness :
    (assign_optimal_task (fun a => if a = "A" then some [("x", 1/2)] else none) (fun _ => none)
      { id := "t1", required_skills := [("x", 1/2)], priority := "medium", complexity := 3/4 }
      ["A"] 0 (fun _ => [])).2 "A"
      = [{ task_id := "t1", assigned_at := 0, complexity := 3/4, priority := "medium" }] := by
  have h := (assign_optimal_task_tracker
    (fun a => if a = "A" then some [("x", 1/2)] else none) (fun _ => none)
    { id := "t1", required_skills := [("x", 1/2)], priority := "medium", complexity := 3/4 }
    ["A"] 0 (fun _ => [])).1 "A" (by simp) (by simp)
  rw [h]
  have hres : (assign_optimal_task
      (fun a => if a = "A" then some [("x", 1/2)] else none) (fun _ => none)
      { id := "t1", required_skills := [("x", 1/2)], priority := "medium", complexity := 3/4 }
      ["A"] 0 (fun _ => [])).1 = some "A" := by
    norm_num [assign_optimal_task, assignLoop, calculate_capability_match, capMatchStep,
      dictGet, List.find?, performance_factor, calculate_workload_factor, pruneWorkload,
      sumComplexity, workloadFactorOf, min_def]
    rw [if_neg (show ¬("A" : String) = "" from by decide)]
  rw [hres, if_pos ⟨rfl, by simp⟩]
  simp [pruneWorkload]

/-- A successfully executed check has status passed or failed, never
error. -/
theorem execute_ok_status (rule : QualityRule) (ctx : String → Option ℚ) (c : Outcome)
    (h : execute_quality_check rule ctx = .ok c) :
    c.status = "passed" ∨ c.status = "failed" := by
  cases hcf : rule.check_function with
  | key k =>
    simp only [execute_quality_check, hcf] at h
    cases hev : evaluate_threshold ((ctx k).getD 0) rule.threshold rule.comparison <;>
      rw [hev] at h <;> simp only [Except.ok.injEq] at h <;> rw [← h] <;> simp
  | evaluator f =>
    cases hf : f ctx with
    | error e =>
      simp only [execute_quality_check, hcf, hf] at h
      exact absurd h (by simp)
    | ok actual =>
      simp only [execute_quality_check, hcf, hf] at h
      cases hev : evaluate_threshold actual rule.threshold rule.comparison <;>
        rw [hev] at h <;> simp only [Except.ok.injEq] at h <;> rw [← h] <;> simp

/-- One gate-loop step, expressed through the per-rule outcome record:
the outcome is appended to checks / warnings / errors according to its
status and severity, and the passed flag accumulates its goodness. -/
theorem gateStep_eq (ctx : String → Option ℚ) (acc : QualityRunResult)
    (rule : QualityRule) :
    gateStep ctx acc rule =
      { project := acc.project
        passed := acc.passed && isGoodRecord (ruleOutcome ctx rule)
        checks := acc.checks ++ List.filter isCheckRecord [ruleOutcome ctx rule]
        warnings := acc.warnings ++ List.filter isWarningRecord [ruleOutcome ctx rule]
        errors := acc.errors ++ List.filter isErrorRecord [ruleOutcome ctx rule] } := by
  cases h : execute_quality_check rule ctx with
  | error e =>
    have ho : ruleOutcome ctx rule = errorOutcome rule e := by rw [ruleOutcome, h]
    have e1 : isCheckRecord (errorOutcome rule e) = false := rfl
    have e2 : isErrorRecord (errorOutcome rule e) = true := rfl
    have e3 : isWarningRecord (errorOutcome rule e) = false := rfl
    have e4 : isGoodRecord (errorOutcome rule e) = false := rfl
    simp only [gateStep, h, ho]
    simp [e1, e2, e3, e4, List.filter_cons]
  | ok c =>
    have ho : ruleOutcome ctx rule = c := by rw [ruleOutcome, h]
    rcases execute_ok_status rule ctx c h with hst | hst
    · have e1 : isCheckRecord c = true := by simp only [isCheckRecord, hst]; rfl
      have e2 : isErrorRecord c = false := by simp only [isErrorRecord, hst]; rfl
      have e3 : isWarningRecord c = false := by simp only [isWarningRecord, hst]; rfl
      have e4 : isGoodRecord c = true := by simp only [isGoodRecord, hst]; rfl
      simp only [gateStep, h, ho]
      rw [if_neg (by simp [hst])]
      simp [e1, e2, e3, e4, List.filter_cons]
    · by_cases hsev : c.severity = "error"
      · have e1 : isCheckRecord c = true := by simp only [isCheckRecord, hst]; rfl
        have e2 : isErrorRecord c = true := by simp only [isErrorRecord, hst, hsev]; rfl
        have e3 : isWarningRecord c = false := by simp only [isWarningRecord, hst, hsev]; rfl
        have e4 : isGoodRecord c = false := by simp only [isGoodRecord, hst]; rfl
        simp only [gateStep, h, ho]
        rw [if_pos hst, if_pos hsev]
        simp [e1, e2, e3, e4, List.filter_cons]
      · have hb : (c.severity == "error") = false := beq_eq_false_iff_ne.mpr hsev
        have e1 : isCheckRecord c = true := by simp only [isCheckRecord, hst]; rfl
        have e2 : isErrorRecord c = false := by simp only [isErrorRecord, hst, hb]; rfl
        have e3 : isWarningRecord c = true := by simp only [isWarningRecord, hst, hb]; rfl
        have e4 : isGoodRecord c = false := by simp only [isGoodRecord, hst]; rfl
        simp only [gateStep, h, ho]
        rw [if_pos hst, if_neg hsev]
        simp [e1, e2, e3, e4, List.filter_cons]

/-- Characterisation of a whole gate run relative to any accumulator:
each result list is the accumulator's list followed by the filtered
per-rule outcomes, and the passed flag is the conjunction of the
outcomes' goodness. -/
theorem check_quality_gates_spec (ctx : String → Option ℚ) :
    ∀ (rules : List QualityRule) (acc : QualityRunResult),
      (rules.foldl (gateStep ctx) acc).project = acc.project
    ∧ (rules.foldl (gateStep ctx) acc).checks
        = acc.checks ++ (rules.map (ruleOutcome ctx)).filter isCheckRecord
    ∧ (rules.foldl (gateStep ctx) acc).warnings
        = acc.warnings ++ (rules.map (ruleOutcome ctx)).filter isWarningRecord
    ∧ (rules.foldl (gateStep ctx) acc).errors
        = acc.errors ++ (rules.map (ruleOutcome ctx)).filter isErrorRecord
    ∧ (rules.foldl (gateStep ctx) acc).passed
        = (acc.passed && (rules.map (ruleOutcome ctx)).all isGoodRecord) := by
  intro rules
  induction rules with
  | nil => intro acc; simp
  | cons rule rest ih =>
    intro acc
    rw [List.foldl_cons, gateStep_eq]
    obtain ⟨h1, h2, h3, h4, h5⟩ := ih
      { project := acc.project
        passed := acc.passed && isGoodRecord (ruleOutcome ctx rule)
        checks := acc.checks ++ List.filter isCheckRecord [ruleOutcome ctx rule]
        warnings := acc.warnings ++ List.filter isWarningRecord [ruleOutcome ctx rule]
        errors := acc.errors ++ List.filter isErrorRecord [ruleOutcome ctx rule] }
    rw [List.map_cons]
    refine ⟨by rw [h1], ?_, ?_, ?_, ?_⟩
    · rw [h2]
      dsimp only
      rw [List.append_assoc, ← List.filter_append, List.singleton_append]
    · rw [h3]
      dsimp only
      rw [List.append_assoc, ← List.filter_append, List.singleton_append]
    · rw [h4]
      dsimp only
      rw [List.append_assoc, ← List.filter_append, List.singleton_append]
    · rw [h5]
      dsimp only
      rw [Bool.and_assoc, ← List.all_cons]

/-- C6: a gate run's passed flag is true iff no recorded outcome of the
run (in its checks or errors lists) has status failed or error, and an
unrecognised comparison operator makes a rule evaluate as an automatic
pass. -/
theorem check_quality_gates_passed_iff (rules : List QualityRule) (project : String)
    (ctx : String → Option ℚ) :
    ((check_quality_gates rules project ctx).passed = true
      ↔ ∀ o ∈ (check_quality_gates rules project ctx).checks
            ++ (check_quality_gates rules project ctx).errors,
          o.status ≠ "failed" ∧ o.status ≠ "error")
  ∧ (∀ (actual threshold : ℚ) (comparison : String),
      comparison ∉ ([">=", "<=", ">", "<", "=="] : List String) →
      evaluate_threshold actual threshold comparison = true) := by
  constructor
  · obtain ⟨_, h2, _, h4, h5⟩ := check_quality_gates_spec ctx rules
      { project := project, passed := true, checks := [], warnings := [], errors := [] }
    rw [check_quality_gates, h2, h4, h5]
    simp only [List.nil_append, Bool.true_and]
    constructor
    · intro hall o ho
      have hmem : o ∈ rules.map (ruleOutcome ctx) := by
        rcases List.mem_append.mp ho with hc | he
        · exact (List.mem_filter.mp hc).1
        · exact (List.mem_filter.mp he).1
      have hg := List.all_eq_true.mp hall o hmem
      simp only [isGoodRecord, Bool.and_eq_true, Bool.not_eq_true', beq_eq_false_iff_ne] at hg
      exact hg
    · intro hp
      apply List.all_eq_true.mpr
      intro o hmem
      by_cases herr : o.status = "error"
      · have hof : o ∈ (rules.map (ruleOutcome ctx)).filter isErrorRecord := by
          apply List.mem_filter.mpr
          refine ⟨hmem, ?_⟩
          simp [isErrorRecord, herr]
        have := hp o (List.mem_append.mpr (Or.inr hof))
        exact absurd herr this.2
      · have hof : o ∈ (rules.map (ruleOutcome ctx)).filter isCheckRecord := by
          apply List.mem_filter.mpr
          refine ⟨hmem, ?_⟩
          simp [isCheckRecord, herr]
        have h := hp o (List.mem_append.mpr (Or.inl hof))
        simp [isGoodRecord, h.1, h.2]
  · intro actual threshold comparison hc
    simp only [List.mem_cons, List.not_mem_nil, or_false, not_or] at hc
    obtain ⟨n1, n2, n3, n4, n5⟩ := hc
    rw [evaluate_threshold, if_neg n1, if_neg n2, if_neg n3, if_neg n4, if_neg n5]

/-- C6 witness: an automatic pass for an unrecognised operator. -/
theorem check_quality_gates_passed_iff_witness :
    evaluate_threshold 3 5 "!=" = true :=
  (check_quality_gates_passed_iff [] "p" (fun _ => none)).2 3 5 "!=" (by decide)

/-- C2 (amended): when a rule's evaluator raises during a gate run,
exactly one outcome record for that rule — with status "error" and
severity "error" — is produced and appended to the run's errors list (not
to the ordered checks list, which receives no record for that rule), the
run's passed flag is false, and every subsequent rule is still evaluated
(the outcomes of the rules before and after it appear unchanged). -/
theorem check_quality_gates_evaluator_error (pre post : List QualityRule)
    (bad : QualityRule) (project : String) (ctx : String → Option ℚ) (e : String)
    (hbad : execute_quality_check bad ctx = .error e) :
    (errorOutcome bad e).status = "error" ∧ (errorOutcome bad e).severity = "error"
  ∧ (check_quality_gates (pre ++ bad :: post) project ctx).errors
      = ((pre.map (ruleOutcome ctx)).filter isErrorRecord)
        ++ errorOutcome bad e :: ((post.map (ruleOutcome ctx)).filter isErrorRecord)
  ∧ (check_quality_gates (pre ++ bad :: post) project ctx).checks
      = ((pre.map (ruleOutcome ctx)).filter isCheckRecord)
        ++ ((post.map (ruleOutcome ctx)).filter isCheckRecord)
  ∧ (check_quality_gates (pre ++ bad :: post) project ctx).passed = false := by
  have hout : ruleOutcome ctx bad = errorOutcome bad e := by rw [ruleOutcome, hbad]
  obtain ⟨_, h2, _, h4, h5⟩ := check_quality_gates_spec ctx (pre ++ bad :: post)
    { project := project, passed := true, checks := [], warnings := [], errors := [] }
  refine ⟨rfl, rfl, ?_, ?_, ?_⟩
  · rw [check_quality_gates, h4, List.map_append, List.map_cons, hout,
      List.filter_append, List.filter_cons]
    rw [show isErrorRecord (errorOutcome bad e) = true from rfl]
    simp
  · rw [check_quality_gates, h2, List.map_append, List.map_cons, hout,
      List.filter_append, List.filter_cons]
    rw [show isCheckRecord (errorOutcome bad e) = false from rfl]
    simp
  · rw [check_quality_gates, h5, List.map_append, List.map_cons, hout, List.all_append,
      List.all_cons]
    rw [show isGoodRecord (errorOutcome bad e) = false from rfl]
    simp

/-- A context carrying only a coverage figure (C2 concrete run). -/
def qctx : String → Option ℚ := fun k => if k = "test_coverage" then some 80 else none

/-- A key-sourced coverage rule, as in the default rule set. -/
def qr_cov : QualityRule :=
  { name := "Test Coverage", check_function := .key "test_coverage", severity := "warning",
    threshold := 85, comparison := ">=",
    message := some "Test coverage below minimum threshold" }

/-- An evaluator rule whose evaluator raises. -/
def qr_bad : QualityRule :=
  { name := "Broken", check_function := .evaluator (fun _ => .error "boom"),
    severity := "warning", threshold := 0, comparison := ">=", message := none }

/-- A key-sourced rule registered after the raising one. -/
def qr_resp : QualityRule :=
  { name := "API Response Time", check_function := .key "avg_response_time",
    severity := "error", threshold := 200, comparison := "<=", message := none }

/-- C2 counterexample: a raising evaluator produces a record in the errors
list only — the run's ordered per-rule outcome list (checks) stays empty,
so the error outcome does not appear in it. -/
theorem check_quality_gates_error_not_in_checks :
    (check_quality_gates [qr_bad] "p" qctx).checks = []
  ∧ (check_quality_gates [qr_bad] "p" qctx).errors = [errorOutcome qr_bad "boom"]
  ∧ (check_quality_gates [qr_bad] "p" qctx).passed = false :=
  ⟨rfl, rfl, rfl⟩

/-- C2 witness: with a raising rule between two key-sourced rules, the gate
fails and both surrounding rules are still evaluated into checks. -/
theorem check_quality_gates_evaluator_error_witness :
    (check_quality_gates [qr_cov, qr_bad, qr_resp] "p" qctx).passed = false
  ∧ (check_quality_gates [qr_cov, qr_bad, qr_resp] "p" qctx).checks.length = 2
  ∧ (check_quality_gates [qr_cov, qr_bad, qr_resp] "p" qctx).errors
      = [errorOutcome qr_bad "boom"] := by
  have h := check_quality_gates_evaluator_error [qr_cov] [qr_resp] qr_bad "p" qctx "boom" rfl
  simp only [List.singleton_append] at h
  refine ⟨h.2.2.2.2, ?_, ?_⟩
  · rw [h.2.2.2.1]
    rfl
  · rw [h.2.2.1]
    rfl

end Orchestrator
